import Mathlib

/- Shallow embedding of `src/swagger_generator.py` (class `SwaggerToFrontendGenerator`)
   and proofs about its two core algorithms: the schema-to-type resolver and the
   identifier synthesizer with its stability registry.

   Python strings are modelled as Lean `String`s.  The character classification
   functions (`str.isalnum`, `str.isdigit`, `str.upper`, ...) are modelled on the
   ASCII fragment, which is the alphabet of every input the naming algorithm
   manipulates.  Python dicts that the code only reads by key are modelled as
   association lists preserving insertion order; Python sets are modelled as
   duplicate-free lists queried only through membership. -/

namespace SwaggerGen

/-- Numeric code of a character (Python `ord`). -/
def charCode (c : Char) : Nat := c.toNat

/-- ASCII digit test, mirroring the `[0-9]` character class / `str.isdigit`. -/
def isAsciiDigit (c : Char) : Bool := decide (48 ≤ charCode c ∧ charCode c ≤ 57)

/-- ASCII lower-case test, mirroring the `[a-z]` character class. -/
def isAsciiLower (c : Char) : Bool := decide (97 ≤ charCode c ∧ charCode c ≤ 122)

/-- ASCII upper-case test, mirroring the `[A-Z]` character class. -/
def isAsciiUpper (c : Char) : Bool := decide (65 ≤ charCode c ∧ charCode c ≤ 90)

/-- ASCII letter test. -/
def isAsciiAlpha (c : Char) : Bool := isAsciiLower c || isAsciiUpper c

/-- ASCII alphanumeric test (`str.isalnum` on ASCII input). -/
def isAsciiAlnum (c : Char) : Bool := isAsciiAlpha c || isAsciiDigit c

/-- Python regex `\s` class on ASCII input. -/
def isPyWhitespace (c : Char) : Bool := c == ' ' || c == '\t' || c == '\n' || c == '\r'

/-- ASCII upper-casing of one character (`str.upper`). -/
def asciiToUpper (c : Char) : Char :=
  if isAsciiLower c then Char.ofNat (charCode c - 32) else c

/-- ASCII lower-casing of one character (`str.lower`). -/
def asciiToLower (c : Char) : Char :=
  if isAsciiUpper c then Char.ofNat (charCode c + 32) else c

/-- Python `str.upper` on ASCII input. -/
def strUpper (s : String) : String := ⟨s.data.map asciiToUpper⟩

/-- Python `str.lower` on ASCII input. -/
def strLower (s : String) : String := ⟨s.data.map asciiToLower⟩

/-- Split a character list at every character satisfying `p`, keeping empty pieces,
    exactly like Python `re.split` on a single-character class (or `str.split(sep)`
    for a one-character separator). -/
def splitPred (p : Char → Bool) : List Char → List (List Char)
  | [] => [[]]
  | c :: cs =>
    let r := splitPred p cs
    if p c then [] :: r
    else
      match r with
      | h :: t => (c :: h) :: t
      | [] => [[c]]

/-- Python `s.split(sep)` for a one-character separator (keeps empty pieces). -/
def splitOnChar (sep : Char) (s : String) : List String :=
  (splitPred (fun c => c == sep) s.data).map (fun l => ⟨l⟩)

/-- Python `ref.split('/')[-1]` (`split` never returns an empty list). -/
def lastSegment (s : String) : String := (splitOnChar '/' s).getLastD ""

/-- Python `[s for s in path.strip('/').split('/') if s]`.  Stripping `'/'` only
    removes empty end pieces, which the non-empty filter drops anyway, so the
    strip is redundant and omitted. -/
def pathSegs (path : String) : List String :=
  (splitOnChar '/' path).filter (fun s => s != "")

/-- Python `str.startswith`. -/
def strStartsWith (s pre : String) : Bool := pre.data.isPrefixOf s.data

/-- Python `str.endswith`. -/
def strEndsWith (s suf : String) : Bool := suf.data.reverse.isPrefixOf s.data.reverse

/-- Test for a path-parameter segment: `s.startswith('{') and s.endswith('}')`. -/
def isParamSeg (s : String) : Bool := strStartsWith s "\x7b" && strEndsWith s "\x7d"

/-- Python `s[1:-1]`, used to extract a path-parameter name. -/
def paramName (s : String) : String := ⟨(s.data.drop 1).dropLast⟩

/-- Python `''.join(l)`. -/
def strJoin : List String → String
  | [] => ""
  | s :: rest => s ++ strJoin rest

/-- Python `sep.join(l)`. -/
def strIntercalate (sep : String) : List String → String
  | [] => ""
  | [s] => s
  | s :: rest => s ++ sep ++ strIntercalate sep rest

/-- The decimal digit characters used by Python string formatting. -/
def digitChar (n : Nat) : Char :=
  if n = 0 then '0' else if n = 1 then '1' else if n = 2 then '2' else if n = 3 then '3'
  else if n = 4 then '4' else if n = 5 then '5' else if n = 6 then '6' else if n = 7 then '7'
  else if n = 8 then '8' else '9'

/-- Decimal digits of `n`, least significant first.  The first argument is
    structural fuel; it never runs out when it starts at `n` itself. -/
def natDigitsRevAux : Nat → Nat → List Char
  | 0, n => [digitChar (n % 10)]
  | fuel + 1, n => if n < 10 then [digitChar n] else digitChar (n % 10) :: natDigitsRevAux fuel (n / 10)

/-- Decimal rendering of a natural number, as produced by Python `f"{i}"`. -/
def natToDecimal (n : Nat) : String := ⟨(natDigitsRevAux n n).reverse⟩

/-- A schema node, holding exactly the JSON-dict keys that the resolver in
    `swagger_generator.py` reads.  `none` / `[]` / `""` model an absent key;
    `enum` values are the string literals the code quotes one by one. -/
inductive Schema where
  | mk : (ref : Option String) → (type : Option String) → (enum : Option (List String)) →
      (items : Option Schema) → (properties : List (String × Schema)) →
      (additionalProperties : Option Schema) → (required : List String) →
      (description : String) → Schema

/-- The `$ref` key. -/
def Schema.ref : Schema → Option String
  | .mk r _ _ _ _ _ _ _ => r

/-- The `type` key. -/
def Schema.type : Schema → Option String
  | .mk _ t _ _ _ _ _ _ => t

/-- The `enum` key. -/
def Schema.enum : Schema → Option (List String)
  | .mk _ _ e _ _ _ _ _ => e

/-- The `items` key. -/
def Schema.items : Schema → Option Schema
  | .mk _ _ _ i _ _ _ _ => i

/-- The `properties` key (ordered, as a Python dict preserves insertion order). -/
def Schema.properties : Schema → List (String × Schema)
  | .mk _ _ _ _ p _ _ _ => p

/-- The `additionalProperties` key. -/
def Schema.additionalProperties : Schema → Option Schema
  | .mk _ _ _ _ _ a _ _ => a

/-- The `required` key. -/
def Schema.required : Schema → List String
  | .mk _ _ _ _ _ _ r _ => r

/-- The `description` key. -/
def Schema.description : Schema → String
  | .mk _ _ _ _ _ _ _ d => d

/-- The empty JSON object `{}` as a schema node. -/
def Schema.empty : Schema := .mk none none none none [] none [] ""

/-- Python falsiness of a schema dict (`if not schema`): no key present. -/
def Schema.isEmpty (s : Schema) : Bool :=
  s.ref.isNone && s.type.isNone && s.enum.isNone && s.items.isNone &&
  s.properties.isEmpty && s.additionalProperties.isNone && s.required.isEmpty &&
  (s.description == "")

/-- Python `dict.get` over the `components.schemas` mapping. -/
def lookupSchema : List (String × Schema) → String → Option Schema
  | [], _ => none
  | (k, v) :: rest, name => if k = name then some v else lookupSchema rest name

/-- `resolve_ref` (src/swagger_generator.py lines 24-32): resolve a `$ref` string
    against the components table, returning `none` for any other reference shape. -/
def resolve_ref (comps : List (String × Schema)) (ref : String) : Option Schema :=
  if strStartsWith ref "#/components/schemas/" then lookupSchema comps (lastSegment ref)
  else if strStartsWith ref "#/definitions/" then lookupSchema comps (lastSegment ref)
  else none

/-- One level of `generate_typescript_type(schema, context, depth)` (lines 34-83),
    with `generate_inline_interface` (lines 85-98) inlined at its single call site
    and the recursive calls abstracted: `recur` stands for the recursive calls at
    `depth + 1`, and `recurProp` for the per-property resolution at `depth + 2`
    performed inside the inline expansion (which itself runs at `depth + 1` and
    carries the tighter ceiling of 5). -/
def gtpCore (comps : List (String × Schema)) (recur recurProp : Schema → String → Nat → String)
    (schema : Schema) (context : String) (depth : Nat) : String :=
  if 10 < depth then "any"
  else if schema.isEmpty then "any"
  else
    match schema.ref with
    | some ref =>
      let refName := lastSegment ref
      if strStartsWith ref "#/components/schemas/" || strStartsWith ref "#/definitions/" then
        refName
      else
        match resolve_ref comps ref with
        | some refSchema => recur refSchema context (depth + 1)
        | none => refName
    | none =>
      let schemaType := schema.type.getD "object"
      if schemaType = "string" then
        match schema.enum with
        | some values => strIntercalate " | " (values.map (fun v => "\"" ++ v ++ "\""))
        | none => "string"
      else if schemaType = "number" ∨ schemaType = "integer" then "number"
      else if schemaType = "boolean" then "boolean"
      else if schemaType = "array" then
        recur (schema.items.getD Schema.empty) context (depth + 1) ++ "[]"
      else if schemaType = "object" then
        if schema.properties.isEmpty then
          match schema.additionalProperties with
          | some addl =>
            if addl.isEmpty then "\x7b [key: string]: any \x7d"
            else "Record<string, " ++ recur addl context (depth + 1) ++ ">"
          | none => "\x7b [key: string]: any \x7d"
        else
          if 5 < depth + 1 then "any"
          else
            "\x7b " ++
              strIntercalate " "
                (schema.properties.map (fun p =>
                  p.1 ++ "?: " ++ recurProp p.2 (context ++ "_" ++ p.1) (depth + 2) ++ ";")) ++
            " \x7d"
      else "any"

/-- Fueled form of `generate_typescript_type`.  The Python functions recurse with
    `depth + 1` everywhere; `generate_typescript_type` short-circuits to `'any'`
    once `depth > 10` and the inline expansion short-circuits once its depth
    exceeds 5, so along every call chain the computation stops by depth 12 at the
    latest.  `fuel` is the structural counter `12 - depth`: every recursive call
    decreases it as the depth increases, and when it is 0 we have
    `depth ≥ 12 > 10`, where the source returns `'any'` as well. -/
def generateTypescriptTypeFuel (comps : List (String × Schema)) :
    Nat → Schema → String → Nat → String
  | 0, _, _, _ => "any"
  | fuel + 1, schema, context, depth =>
    gtpCore comps
      (fun s c d => generateTypescriptTypeFuel comps fuel s c d)
      (fun s c d =>
        match fuel with
        | 0 => "any"
        | fuel' + 1 => generateTypescriptTypeFuel comps fuel' s c d)
      schema context depth

/-- `generate_typescript_type(schema, context, depth)` (lines 34-83).  The fuel of
    the fueled form is fixed to `12 - depth`, which the recursion maintains. -/
def generate_typescript_type (comps : List (String × Schema)) (schema : Schema)
    (context : String) (depth : Nat) : String :=
  generateTypescriptTypeFuel comps (12 - depth) schema context depth

/-- `generate_inline_interface(properties, context, depth)` (lines 85-98): render an
    inline structural type; every property is rendered with the `?` marker. -/
def generate_inline_interface (comps : List (String × Schema))
    (properties : List (String × Schema)) (context : String) (depth : Nat) : String :=
  if 5 < depth then "any"
  else
    "\x7b " ++
      strIntercalate " "
        (properties.map (fun p =>
          p.1 ++ "?: " ++ generate_typescript_type comps p.2 (context ++ "_" ++ p.1) (depth + 1)
            ++ ";")) ++
    " \x7d"

/-- `generate_interface(schema_name, schema)` (lines 100-125), with the mutable
    `self.generated_interfaces` set made an explicit argument and result. -/
def generate_interface (comps : List (String × Schema)) (generatedInterfaces : List String)
    (schemaName : String) (schema : Schema) : String × List String :=
  if schemaName ∈ generatedInterfaces then
    ("// interface " ++ schemaName ++ " 已生成\n", generatedInterfaces)
  else
    let generated := schemaName :: generatedInterfaces
    if schema.properties.isEmpty then
      ("interface " ++ schemaName ++ " " ++ generate_typescript_type comps schema schemaName 0,
        generated)
    else
      let lines := schema.properties.flatMap (fun p =>
        (if p.2.description != "" then ["  /** " ++ p.2.description ++ " */"] else []) ++
        ["  " ++ p.1 ++ (if p.1 ∈ schema.required then "" else "?") ++ ": " ++
          generate_typescript_type comps p.2 (schemaName ++ "_" ++ p.1) 0 ++ ";"])
      ("export interface " ++ schemaName ++ " \x7b\n" ++ strIntercalate "\n" lines ++ "\n\x7d",
        generated)

/-- The direct self-cycle of testable property 8: a named schema `A` one of whose
    properties is `$ref: #/components/schemas/A`. -/
def selfCycleSchema : Schema :=
  .mk none (some "object") none none
    [("child", .mk (some "#/components/schemas/A") none none none [] none [] "")] none [] ""

/-- Python `str.capitalize`: first character upper-cased, the rest lower-cased. -/
def pyCapitalize (s : String) : String :=
  match s.data with
  | [] => ""
  | c :: rest => ⟨asciiToUpper c :: rest.map asciiToLower⟩

/-- `_normalize_identifier(text)` (lines 517-529). -/
def normalize_identifier (text : String) : String :=
  if text = "" then "fn"
  else
    let ident : List Char :=
      text.data.map (fun ch => if isAsciiAlnum ch || ch == '_' || ch == '$' then ch else '_')
    match ident with
    | [] => ⟨ident⟩
    | c :: _ => if isAsciiDigit c then ⟨'_' :: ident⟩ else ⟨ident⟩

/-- The substitution `re.sub(r'([a-z0-9])([A-Z])', r'\1_\2', part)` (line 547).  The
    left character of any match is lower-case or a digit and the right one is
    upper-case, so matches can never overlap and the substitution is exactly this
    pairwise insertion. -/
def camelSplitMarks : List Char → List Char
  | [] => []
  | [c] => [c]
  | a :: b :: rest =>
    if (isAsciiLower a || isAsciiDigit a) && isAsciiUpper b then
      a :: '_' :: camelSplitMarks (b :: rest)
    else a :: camelSplitMarks (b :: rest)

/-- Inner loop of the adjacent case-insensitive deduplication in `_to_camel`
    (lines 534-539); `prev` is the last kept part. -/
def dedupGo (prev : String) : List String → List String
  | [] => []
  | p :: rest =>
    if strLower prev = strLower p then dedupGo prev rest else p :: dedupGo p rest

/-- The adjacent case-insensitive deduplication in `_to_camel` (lines 534-539). -/
def dedupAdjacentCI : List String → List String
  | [] => []
  | p :: rest => p :: dedupGo p rest

/-- Rendering of one non-leading part in `_to_camel` (lines 544-549). -/
def camelRestPart (part : String) : String :=
  let partNorm := camelSplitMarks part.data
  let subparts := (splitPred (fun c => c == '_' || isPyWhitespace c) partNorm).filter
    (fun l => !l.isEmpty)
  strJoin (subparts.map (fun sp => pyCapitalize ⟨sp⟩))

/-- `_to_camel(text)` (lines 531-551). -/
def to_camel (text : String) : String :=
  let text1 : String := ⟨text.data.map (fun c => if c == '/' || c == '-' then '_' else c)⟩
  let parts := (splitOnChar '_' text1).filter (fun s => s != "")
  let parts := dedupAdjacentCI parts
  match parts with
  | [] => "fn"
  | first :: rest => normalize_identifier (strLower first ++ strJoin (rest.map camelRestPart))

/-- The fixed set of bare generic verbs of `_is_generic_operation_id` (lines 489-504). -/
def genericOperationIds : List String :=
  ["get", "save", "update", "delete", "list", "page", "detail", "info", "query", "remove", "copy"]

/-- `_is_generic_operation_id(op_id)` (lines 489-504). -/
def is_generic_operation_id (opId : String) : Bool :=
  if opId = "" then true else decide (strLower opId ∈ genericOperationIds)

/-- The test `re.search(r'[_-][0-9]+$', op_id)` (line 511): a non-empty trailing
    digit run preceded by `_` or `-`. -/
def endsWithSepDigits (opId : String) : Bool :=
  let rev := opId.data.reverse
  let ds := rev.takeWhile isAsciiDigit
  !ds.isEmpty &&
    (match rev.drop ds.length with
      | c :: _ => c == '_' || c == '-'
      | [] => false)

/-- The verb alternation of the regex on line 513. -/
def seqVerbList : List String := ["get", "save", "update", "delete", "list", "page", "detail"]

/-- The test `re.fullmatch(r'(get|save|update|delete|list|page|detail)[-_]?\d+', op_id,
    flags=re.IGNORECASE)` (line 513).  Lower-casing the whole string implements the
    IGNORECASE flag, since digits and the separators are fixed under lower-casing. -/
def verbDigitsMatch (opId : String) : Bool :=
  let t := strLower opId
  seqVerbList.any (fun v =>
    strStartsWith t v &&
      (let r : List Char := t.data.drop v.data.length
       let r2 : List Char :=
         match r with
         | c :: rest => if c == '-' || c == '_' then rest else r
         | [] => r
       !r2.isEmpty && r2.all isAsciiDigit))

/-- `_is_sequential_operation_id(op_id)` (lines 506-515). -/
def is_sequential_operation_id (opId : String) : Bool :=
  if opId = "" then true
  else if !opId.data.isEmpty && opId.data.all isAsciiDigit then true
  else if endsWithSepDigits opId then true
  else if verbDigitsMatch opId then true
  else false

/-- The run-scoped naming state of the generator: `self._module_func_names`,
    `self._global_func_names` and `self.existing_mappings`. -/
structure GenState where
  moduleFuncNames : List (String × List String)
  globalFuncNames : List String
  existingMappings : List ((String × String) × String)

/-- The state of a fresh generator instance with nothing loaded. -/
def GenState.empty : GenState := ⟨[], [], []⟩

/-- Python dict lookup on the `(method, url) -> name` mapping. -/
def lookupMapping : List ((String × String) × String) → (String × String) → Option String
  | [], _ => none
  | (k, v) :: rest, key => if k = key then some v else lookupMapping rest key

/-- Python dict lookup on the per-module used-name table. -/
def lookupModule : List (String × List String) → String → Option (List String)
  | [], _ => none
  | (k, v) :: rest, key => if k = key then some v else lookupModule rest key

/-- `self._module_func_names.setdefault(module_key, set())`, read-only view. -/
def GenState.moduleSeen (st : GenState) (moduleKey : String) : List String :=
  (lookupModule st.moduleFuncNames moduleKey).getD []

/-- Python `set.add` on a set modelled as a duplicate-free list. -/
def insertName (n : String) (l : List String) : List String := if n ∈ l then l else n :: l

/-- Store an updated per-module used-name set. -/
def setModule : List (String × List String) → String → List String → List (String × List String)
  | [], k, v => [(k, v)]
  | (k', v') :: rest, k, v => if k' = k then (k, v) :: rest else (k', v') :: setModule rest k v

/-- The effect of `seen.add(name); global_seen.add(name)` (registry-hit path,
    lines 381-382): the mapping is untouched. -/
def GenState.addName (st : GenState) (moduleKey name : String) : GenState :=
  ⟨setModule st.moduleFuncNames moduleKey (insertName name (st.moduleSeen moduleKey)),
   insertName name st.globalFuncNames,
   st.existingMappings⟩

/-- The effect of `seen.add(name); global_seen.add(name);
    self.existing_mappings[existing_key] = name` after a successful candidate check. -/
def GenState.claim (st : GenState) (moduleKey : String) (key : String × String)
    (name : String) : GenState :=
  ⟨setModule st.moduleFuncNames moduleKey (insertName name (st.moduleSeen moduleKey)),
   insertName name st.globalFuncNames,
   st.existingMappings ++ [(key, name)]⟩

/-- `_convert_path_to_url(path)` (lines 834-844). -/
def convert_path_to_url (path : String) : String :=
  strIntercalate "/" ((splitOnChar '/' path).map (fun part =>
    if isParamSeg part then "$\x7bpathParams." ++ paramName part ++ "\x7d" else part))

/-- The module key computed on line 375. -/
def module_key_of (moduleName : String) : String :=
  strLower
    ⟨(if moduleName = "" then "Default" else moduleName).data.map
      (fun c => if isAsciiAlnum c then c else '_')⟩

/-- The version/generic segments dropped from paths (lines 400 and 572). -/
def genericSegs : List String := ["api", "v1", "v2", "v3", "app"]

/-- The closed action-token set (lines 402-417 and 575-590). -/
def actionTokens : List String :=
  ["save", "delete", "remove", "list", "page", "copy", "byId", "byAlias", "search", "query",
   "update", "detail", "info", "del"]

/-- The ordered action search list of `_build_short_name` (lines 598-611). -/
def shortSearchOrder : List String :=
  ["list", "page", "save", "delete", "copy", "byId", "byAlias", "search", "query", "update",
   "remove", "del"]

/-- Python `l[-2]` (guarded by a length check at every use site). -/
def penultimateD (l : List String) (d : String) : String :=
  match l.reverse with
  | _ :: b :: _ => b
  | _ => d

/-- Python `l[-3]` (guarded by a length check at every use site). -/
def antepenultimateD (l : List String) (d : String) : String :=
  match l.reverse with
  | _ :: _ :: c :: _ => c
  | _ => d

/-- Python `l[-2:]` for a list of length at least 2. -/
def lastTwo (l : List String) : List String :=
  match l.reverse with
  | a :: b :: _ => [b, a]
  | _ => l

/-- `_build_short_name(path, method)` (lines 569-657). -/
def build_short_name (path method : String) : String :=
  let segs := pathSegs path
  let nonParams := segs.filter (fun s => !isParamSeg s)
  let tokens := nonParams.filter (fun s => decide (s ∉ genericSegs))
  let ar : Option String × List String :=
    match tokens.getLast? with
    | some last =>
      if last ∈ actionTokens then (some last, tokens.dropLast)
      else
        match shortSearchOrder.find? (fun a => decide (a ∈ tokens)) with
        | some a => (some a, tokens)
        | none => (none, tokens)
    | none => (none, tokens)
  let action := ar.1
  let tokens := ar.2
  let resource := tokens.getLastD "resource"
  let resource :=
    if decide (resource ∈ ["data", "info", "detail", "group", "list"]) && decide (2 ≤ tokens.length)
    then penultimateD tokens "resource" ++ "_" ++ resource
    else resource
  let methodLower := strLower method
  let pfx :=
    if action = some "list" then "list"
    else if action = some "page" then "page"
    else if action = some "save" then "save"
    else if action = some "delete" ∨ action = some "remove" ∨ action = some "del" then "delete"
    else if action = some "copy" then "copy"
    else if action = some "search" ∨ action = some "query" then "query"
    else if action = some "update" then "update"
    else if action = some "byId" ∨ action = some "byAlias" then "get"
    else if methodLower = "get" then "get"
    else if methodLower = "post" then "query"
    else if methodLower = "put" ∨ methodLower = "patch" then "update"
    else if methodLower = "delete" then "remove"
    else methodLower
  let suf :=
    if action = some "byId" ∨ "byId" ∈ segs then "ById"
    else if action = some "byAlias" ∨ "byAlias" ∈ segs then "ByAlias"
    else ""
  let extra :=
    match action with
    | some a =>
      if decide (a ∉ ["list", "page", "save", "delete", "remove", "del", "copy", "byId",
          "byAlias", "query", "update", "detail", "info"])
      then "_" ++ a else ""
    | none => ""
  to_camel (pfx ++ "_" ++ resource ++ extra ++ suf)

/-- First candidate not yet used in this module nor globally; mirrors the repeated
    `if name not in seen and name not in global_seen` checks of lines 456-479,
    which run against an unchanged state. -/
def firstFreeCandidate (seen globalSeen : List String) : List String → Option String
  | [] => none
  | c :: rest =>
    if c ∉ seen ∧ c ∉ globalSeen then some c else firstFreeCandidate seen globalSeen rest

/-- The numeric-suffix loop of lines 480-483: starting at `i`, return the first
    `name + str(i)` free in both sets.  The fuel argument is structural; with fuel
    `|seen| + |global| + 1` the loop provably finds a free name (the candidates are
    pairwise distinct), so the fueled form agrees with the unbounded Python loop. -/
def find_free (seen globalSeen : List String) (name : String) : Nat → Nat → String
  | i, 0 => name ++ natToDecimal i
  | i, fuel + 1 =>
    let cand := name ++ natToDecimal i
    if cand ∈ seen ∨ cand ∈ globalSeen then find_free seen globalSeen name (i + 1) fuel else cand

/-- Candidate selection of the registry-miss path of `_build_function_name`
    (lines 392-487): claim `base` if free, otherwise the first free fallback
    candidate, otherwise loop numeric suffixes on `base`.  The used-name sets do
    not change between the successive checks, so checking the pre-computed
    candidates in order is exactly the source's sequence of guarded returns. -/
def chooseName (st : GenState) (moduleKey : String) (key : String × String) (base : String)
    (candidates : List String) : String × GenState :=
  let seen := st.moduleSeen moduleKey
  if base ∉ seen ∧ base ∉ st.globalFuncNames then (base, st.claim moduleKey key base)
  else
    match firstFreeCandidate seen st.globalFuncNames candidates with
    | some cand => (cand, st.claim moduleKey key cand)
    | none =>
      let fin := find_free seen st.globalFuncNames base 2
        (seen.length + st.globalFuncNames.length + 1)
      (fin, st.claim moduleKey key fin)

/-- `_build_function_name(module_name, path, method, operation_id)` (lines 370-487),
    with the three mutable tables threaded through `GenState`. -/
def build_function_name (st : GenState) (moduleName path method operationId : String) :
    String × GenState :=
  let existingKey := (strUpper method, convert_path_to_url path)
  let moduleKey := module_key_of moduleName
  match lookupMapping st.existingMappings existingKey with
  | some existingName => (existingName, st.addName moduleKey existingName)
  | none =>
    let base :=
      if operationId ≠ "" ∧ is_sequential_operation_id operationId = false ∧
          is_generic_operation_id operationId = false
      then normalize_identifier operationId
      else build_short_name path method
    let segs := pathSegs path
    let nonParams := segs.filter (fun s => !isParamSeg s)
    let tokens := nonParams.filter (fun s => decide (s ∉ genericSegs))
    let resource0 := tokens.getLastD "resource"
    let parent0 : Option String :=
      if 2 ≤ tokens.length then some (penultimateD tokens "resource") else none
    let arp : Option String × String × Option String :=
      match tokens.getLast? with
      | some last =>
        if last ∈ actionTokens then
          (some last,
           if 2 ≤ tokens.length then penultimateD tokens "resource" else resource0,
           if 3 ≤ tokens.length then some (antepenultimateD tokens "resource") else parent0)
        else (none, resource0, parent0)
      | none => (none, resource0, parent0)
    let action := arp.1
    let resource := arp.2.1
    let parent := arp.2.2
    let methodLower := strLower method
    let pfx :=
      if action = some "list" then "list"
      else if action = some "page" then "page"
      else if action = some "save" then "save"
      else if action = some "delete" ∨ action = some "remove" ∨ action = some "del" then
        "delete"
      else if action = some "copy" then "copy"
      else if action = some "byId" ∨ action = some "byAlias" ∨ action = some "detail" ∨
          action = some "info" then "get"
      else if methodLower = "get" then "get"
      else if methodLower = "post" then "query"
      else if methodLower = "put" ∨ methodLower = "patch" then "update"
      else if methodLower = "delete" then "remove"
      else methodLower
    let suf :=
      if action = some "byId" ∨ "byId" ∈ segs then "ById"
      else if action = some "byAlias" ∨ "byAlias" ∈ segs then "ByAlias"
      else ""
    let paramNames := (segs.filter isParamSeg).map paramName
    let candidates : List String :=
      (match parent with
        | some par => [to_camel (pfx ++ "_" ++ par ++ "_" ++ resource ++ suf)]
        | none => []) ++
      (if paramNames.isEmpty then []
       else [to_camel (pfx ++ "_" ++ resource ++ "_By" ++ strJoin (paramNames.map pyCapitalize))]) ++
      [to_camel (pfx ++ "_" ++
        (if 2 ≤ tokens.length then strIntercalate "_" (lastTwo tokens) else resource) ++ suf)]
    chooseName st moduleKey existingKey base candidates

/-- One operation of a document, as consumed by `generate_api_function`:
    primary tag, raw path, HTTP method and (possibly empty) operationId. -/
structure Operation where
  moduleName : String
  path : String
  method : String
  operationId : String

/-- Naming pass over a document's operations in order, as `generate_module_apis`
    drives `_build_function_name`; returns the `(key, name)` assignments and the
    final state. -/
def runOps : GenState → List Operation → List ((String × String) × String) × GenState
  | st, [] => ([], st)
  | st, op :: rest =>
    let r := build_function_name st op.moduleName op.path op.method op.operationId
    let key := (strUpper op.method, convert_path_to_url op.path)
    let rres := runOps r.2 rest
    ((key, r.1) :: rres.1, rres.2)

/-- Number of candidates `name + str(i + k)`, `k < fuel`, that are already used. -/
def takenCount (seen globalSeen : List String) (nm : String) : Nat → Nat → Nat
  | _, 0 => 0
  | i, fuel + 1 =>
    (if nm ++ natToDecimal i ∈ seen ∨ nm ++ natToDecimal i ∈ globalSeen then 1 else 0) +
      takenCount seen globalSeen nm (i + 1) fuel

/-- The invariant maintained by the naming pass: recorded names are globally
    reserved, and the key-to-name mapping is injective. -/
def MappingInv (st : GenState) : Prop :=
  (∀ k n, lookupMapping st.existingMappings k = some n → n ∈ st.globalFuncNames) ∧
  (∀ k₁ k₂ n, lookupMapping st.existingMappings k₁ = some n →
    lookupMapping st.existingMappings k₂ = some n → k₁ = k₂)

/-- A plain string schema. -/
def strSchema : Schema := .mk none (some "string") none none [] none [] ""

/-- A string schema carrying an enumeration. -/
def enumSchema (values : List String) : Schema :=
  .mk none (some "string") (some values) none [] none [] ""

/-- An object schema with explicit properties and a `required` list. -/
def objSchema (props : List (String × Schema)) (req : List String) : Schema :=
  .mk none (some "object") none none props none req ""

/-- A bare `$ref` schema node. -/
def refSchema (r : String) : Schema := .mk (some r) none none none [] none [] ""

/-- Rendering dictated by the specification's words for inline objects: an inline
    structural type in which every property carries the optional marker,
    irrespective of any `required` list.  Stated separately from
    `generate_inline_interface` so that the two can be compared. -/
def inlineAllOptionalRender (comps : List (String × Schema))
    (properties : List (String × Schema)) (context : String) (depth : Nat) : String :=
  "\x7b " ++
    strIntercalate " "
      (properties.map (fun p =>
        p.1 ++ "?: " ++ generate_typescript_type comps p.2 (context ++ "_" ++ p.1) (depth + 1)
          ++ ";")) ++
  " \x7d"

/-! Freshness of the numeric-suffix loop.  The candidates `name + str(i)` are
    pairwise distinct strings, so among `|seen| + |global| + 1` consecutive
    candidates at least one lies outside both finite used-name sets, and the
    fueled loop `find_free` returns the first such candidate, exactly like the
    unbounded `while` loop in the source. -/

theorem digitChar_inj : ∀ a < 10, ∀ b < 10, digitChar a = digitChar b → a = b := by decide

theorem natDigitsRevAux_ne_nil (fuel n : Nat) : natDigitsRevAux fuel n ≠ [] := by
  cases fuel with
  | zero => simp [natDigitsRevAux]
  | succ g => simp only [natDigitsRevAux]; split <;> simp

theorem natDigitsRevAux_fuel_irrel :
    ∀ f₁ f₂ n : Nat, n ≤ f₁ → n ≤ f₂ → natDigitsRevAux f₁ n = natDigitsRevAux f₂ n := by
  intro f₁
  induction f₁ with
  | zero =>
    intro f₂ n h₁ h₂
    have hn : n = 0 := by omega
    subst hn
    cases f₂ with
    | zero => rfl
    | succ g => simp [natDigitsRevAux]
  | succ g₁ ih =>
    intro f₂ n h₁ h₂
    cases f₂ with
    | zero =>
      have hn : n = 0 := by omega
      subst hn
      simp [natDigitsRevAux]
    | succ g₂ =>
      simp only [natDigitsRevAux]
      by_cases hn : n < 10
      · simp [hn]
      · have hd : n / 10 < n := Nat.div_lt_self (by omega) (by omega)
        simp only [if_neg hn]
        rw [ih g₂ (n / 10) (by omega) (by omega)]

theorem natDigitsRevAux_inj :
    ∀ f a b : Nat, a ≤ f → b ≤ f → natDigitsRevAux f a = natDigitsRevAux f b → a = b := by
  intro f
  induction f with
  | zero => intro a b h₁ h₂ _; omega
  | succ g ih =>
    intro a b ha hb h
    simp only [natDigitsRevAux] at h
    by_cases h10a : a < 10 <;> by_cases h10b : b < 10
    · rw [if_pos h10a, if_pos h10b] at h
      simp only [List.cons.injEq] at h
      exact digitChar_inj a h10a b h10b h.1
    · rw [if_pos h10a, if_neg h10b] at h
      simp only [List.cons.injEq] at h
      exact absurd h.2.symm (natDigitsRevAux_ne_nil g (b / 10))
    · rw [if_neg h10a, if_pos h10b] at h
      simp only [List.cons.injEq] at h
      exact absurd h.2 (natDigitsRevAux_ne_nil g (a / 10))
    · rw [if_neg h10a, if_neg h10b] at h
      simp only [List.cons.injEq] at h
      have hmod : a % 10 = b % 10 :=
        digitChar_inj _ (Nat.mod_lt _ (by omega)) _ (Nat.mod_lt _ (by omega)) h.1
      have hda : a / 10 < a := Nat.div_lt_self (by omega) (by omega)
      have hdb : b / 10 < b := Nat.div_lt_self (by omega) (by omega)
      have hdiv : a / 10 = b / 10 := ih _ _ (by omega) (by omega) h.2
      omega

theorem natToDecimal_inj : ∀ a b : Nat, natToDecimal a = natToDecimal b → a = b := by
  intro a b h
  have hdata : (natDigitsRevAux a a).reverse = (natDigitsRevAux b b).reverse :=
    congrArg String.data h
  have hlists : natDigitsRevAux a a = natDigitsRevAux b b := List.reverse_injective hdata
  have ha : natDigitsRevAux a a = natDigitsRevAux (max a b) a :=
    natDigitsRevAux_fuel_irrel a (max a b) a le_rfl (le_max_left _ _)
  have hb : natDigitsRevAux b b = natDigitsRevAux (max a b) b :=
    natDigitsRevAux_fuel_irrel b (max a b) b le_rfl (le_max_right _ _)
  exact natDigitsRevAux_inj (max a b) a b (le_max_left _ _) (le_max_right _ _)
    (by rw [← ha, ← hb]; exact hlists)

theorem append_natToDecimal_inj (nm : String) (i j : Nat)
    (h : nm ++ natToDecimal i = nm ++ natToDecimal j) : i = j := by
  apply natToDecimal_inj
  have hd : (nm ++ natToDecimal i).data = (nm ++ natToDecimal j).data := congrArg String.data h
  rw [String.data_append, String.data_append] at hd
  exact String.ext (List.append_cancel_left hd)

theorem find_free_fresh (seen globalSeen : List String) (nm : String) :
    ∀ fuel i, takenCount seen globalSeen nm i fuel < fuel →
      find_free seen globalSeen nm i fuel ∉ seen ∧ find_free seen globalSeen nm i fuel ∉ globalSeen := by
  intro fuel
  induction fuel with
  | zero => intro i h; omega
  | succ g ih =>
    intro i h
    simp only [find_free]
    by_cases hc : nm ++ natToDecimal i ∈ seen ∨ nm ++ natToDecimal i ∈ globalSeen
    · rw [if_pos hc]
      apply ih
      simp only [takenCount, if_pos hc] at h
      omega
    · rw [if_neg hc]
      push_neg at hc
      exact hc

theorem takenCount_le (seen globalSeen : List String) (nm : String) :
    ∀ fuel i (S : Finset String),
      (∀ k, k < fuel →
        (nm ++ natToDecimal (i + k) ∈ seen ∨ nm ++ natToDecimal (i + k) ∈ globalSeen) →
        nm ++ natToDecimal (i + k) ∈ S) →
      takenCount seen globalSeen nm i fuel ≤ S.card := by
  intro fuel
  induction fuel with
  | zero => intro i S _; simp [takenCount]
  | succ g ih =>
    intro i S hS
    simp only [takenCount]
    by_cases hc : nm ++ natToDecimal i ∈ seen ∨ nm ++ natToDecimal i ∈ globalSeen
    · rw [if_pos hc]
      have hcS : nm ++ natToDecimal i ∈ S := by
        have h0 := hS 0 (by omega)
        rw [Nat.add_zero] at h0
        exact h0 hc
      have htail : takenCount seen globalSeen nm (i + 1) g ≤ (S.erase (nm ++ natToDecimal i)).card := by
        apply ih
        intro k hk hmem
        have hne : nm ++ natToDecimal (i + 1 + k) ≠ nm ++ natToDecimal i := by
          intro he
          have := append_natToDecimal_inj nm (i + 1 + k) i he
          omega
        have hin : nm ++ natToDecimal (i + 1 + k) ∈ S := by
          have := hS (k + 1) (by omega) (by rw [show i + (k + 1) = i + 1 + k by omega]; exact hmem)
          rwa [show i + (k + 1) = i + 1 + k by omega] at this
        exact Finset.mem_erase.mpr ⟨hne, hin⟩
      have hcard : (S.erase (nm ++ natToDecimal i)).card = S.card - 1 :=
        Finset.card_erase_of_mem hcS
      have hpos : 1 ≤ S.card := Finset.card_pos.mpr ⟨_, hcS⟩
      omega
    · rw [if_neg hc]
      simp only [Nat.zero_add]
      apply ih
      intro k hk hmem
      have := hS (k + 1) (by omega) (by rw [show i + (k + 1) = i + 1 + k by omega]; exact hmem)
      rwa [show i + (k + 1) = i + 1 + k by omega] at this

theorem find_free_result_fresh (seen globalSeen : List String) (nm : String) :
    find_free seen globalSeen nm 2 (seen.length + globalSeen.length + 1) ∉ seen ∧
      find_free seen globalSeen nm 2 (seen.length + globalSeen.length + 1) ∉ globalSeen := by
  apply find_free_fresh
  have hle : takenCount seen globalSeen nm 2 (seen.length + globalSeen.length + 1) ≤
      ((seen ++ globalSeen).toFinset).card := by
    apply takenCount_le
    intro k _ hmem
    rw [List.mem_toFinset, List.mem_append]
    exact hmem
  have hcard : ((seen ++ globalSeen).toFinset).card ≤ (seen ++ globalSeen).length :=
    (seen ++ globalSeen).toFinset_card_le
  rw [List.length_append] at hcard
  omega

/-! Case analysis of `_build_function_name`: a registry hit returns the recorded
    name verbatim and leaves the mapping untouched; a registry miss claims a name
    that is free in both used-name sets and appends exactly one mapping entry. -/

theorem firstFreeCandidate_spec (seen globalSeen : List String) :
    ∀ l c, firstFreeCandidate seen globalSeen l = some c → c ∉ seen ∧ c ∉ globalSeen := by
  intro l
  induction l with
  | nil => intro c h; simp [firstFreeCandidate] at h
  | cons x rest ih =>
    intro c h
    simp only [firstFreeCandidate] at h
    by_cases hx : x ∉ seen ∧ x ∉ globalSeen
    · rw [if_pos hx] at h
      injection h with h
      subst h
      exact hx
    · rw [if_neg hx] at h
      exact ih c h

theorem chooseName_spec (st : GenState) (moduleKey : String) (key : String × String)
    (base : String) (candidates : List String) :
    ∃ c, c ∉ st.moduleSeen moduleKey ∧ c ∉ st.globalFuncNames ∧
      chooseName st moduleKey key base candidates = (c, st.claim moduleKey key c) := by
  unfold chooseName
  by_cases hb : base ∉ st.moduleSeen moduleKey ∧ base ∉ st.globalFuncNames
  · exact ⟨base, hb.1, hb.2, by rw [if_pos hb]⟩
  · rw [if_neg hb]
    cases hf : firstFreeCandidate (st.moduleSeen moduleKey) st.globalFuncNames candidates with
    | some cand =>
      obtain ⟨h1, h2⟩ := firstFreeCandidate_spec _ _ _ _ hf
      exact ⟨cand, h1, h2, rfl⟩
    | none =>
      obtain ⟨h1, h2⟩ := find_free_result_fresh (st.moduleSeen moduleKey) st.globalFuncNames base
      exact ⟨_, h1, h2, rfl⟩

theorem build_function_name_hit (st : GenState) (mn path method opId n : String)
    (h : lookupMapping st.existingMappings (strUpper method, convert_path_to_url path) = some n) :
    build_function_name st mn path method opId = (n, st.addName (module_key_of mn) n) := by
  unfold build_function_name
  simp only [h]

theorem build_function_name_miss (st : GenState) (mn path method opId : String)
    (h : lookupMapping st.existingMappings (strUpper method, convert_path_to_url path) = none) :
    ∃ c, c ∉ st.moduleSeen (module_key_of mn) ∧ c ∉ st.globalFuncNames ∧
      build_function_name st mn path method opId =
        (c, st.claim (module_key_of mn) (strUpper method, convert_path_to_url path) c) := by
  unfold build_function_name
  simp only [h]
  exact chooseName_spec st (module_key_of mn) (strUpper method, convert_path_to_url path) _ _

/-! The registry invariant: every recorded name is in the global used-name set,
    and no two keys record the same name. -/

theorem mem_insertName (x n : String) (l : List String) :
    x ∈ insertName n l ↔ x = n ∨ x ∈ l := by
  unfold insertName
  by_cases h : n ∈ l
  · rw [if_pos h]
    constructor
    · exact Or.inr
    · rintro (rfl | hx)
      · exact h
      · exact hx
  · rw [if_neg h]
    exact List.mem_cons

theorem lookupMapping_append_some (m : List ((String × String) × String))
    (k' : String × String) (n : String) (k : String × String) (v : String)
    (h : lookupMapping m k' = some n) : lookupMapping (m ++ [(k, v)]) k' = some n := by
  induction m with
  | nil => simp [lookupMapping] at h
  | cons a rest ih =>
    obtain ⟨ka, va⟩ := a
    simp only [lookupMapping, List.cons_append] at h ⊢
    by_cases hk : ka = k'
    · rwa [if_pos hk] at h ⊢
    · rw [if_neg hk] at h ⊢
      exact ih h

theorem lookupMapping_append_none (m : List ((String × String) × String))
    (k' : String × String) (k : String × String) (v : String)
    (h : lookupMapping m k' = none) :
    lookupMapping (m ++ [(k, v)]) k' = if k = k' then some v else none := by
  induction m with
  | nil => simp [lookupMapping]
  | cons a rest ih =>
    obtain ⟨ka, va⟩ := a
    simp only [lookupMapping, List.cons_append] at h ⊢
    by_cases hk : ka = k'
    · rw [if_pos hk] at h
      exact absurd h (by simp)
    · rw [if_neg hk] at h ⊢
      exact ih h

theorem mappingInv_empty : MappingInv GenState.empty := by
  constructor
  · intro k n h
    simp [GenState.empty, lookupMapping] at h
  · intro k₁ k₂ n h₁ h₂
    simp [GenState.empty, lookupMapping] at h₁

theorem mappingInv_preserved (st : GenState) (mn path method opId : String)
    (hinv : MappingInv st) : MappingInv (build_function_name st mn path method opId).2 := by
  cases hmap : lookupMapping st.existingMappings (strUpper method, convert_path_to_url path) with
  | some n =>
    rw [build_function_name_hit st mn path method opId n hmap]
    constructor
    · intro k m hk
      exact (mem_insertName m n st.globalFuncNames).mpr (Or.inr (hinv.1 k m hk))
    · exact fun k₁ k₂ m h₁ h₂ => hinv.2 k₁ k₂ m h₁ h₂
  | none =>
    obtain ⟨c, _, hglob, heq⟩ := build_function_name_miss st mn path method opId hmap
    rw [heq]
    set key := (strUpper method, convert_path_to_url path) with hkey
    constructor
    · intro k m hk
      simp only [GenState.claim] at hk ⊢
      cases hold : lookupMapping st.existingMappings k with
      | some n =>
        rw [lookupMapping_append_some st.existingMappings k n key c hold] at hk
        injection hk with hk
        rw [← hk]
        exact (mem_insertName n c st.globalFuncNames).mpr (Or.inr (hinv.1 k n hold))
      | none =>
        rw [lookupMapping_append_none st.existingMappings k key c hold] at hk
        by_cases hkk : key = k
        · rw [if_pos hkk] at hk
          injection hk with hk
          rw [← hk]
          exact (mem_insertName c c st.globalFuncNames).mpr (Or.inl rfl)
        · rw [if_neg hkk] at hk
          exact absurd hk (by simp)
    · intro k₁ k₂ m h₁ h₂
      simp only [GenState.claim] at h₁ h₂
      cases hold₁ : lookupMapping st.existingMappings k₁ with
      | some n₁ =>
        rw [lookupMapping_append_some st.existingMappings k₁ n₁ key c hold₁] at h₁
        injection h₁ with h₁
        rw [h₁] at hold₁
        cases hold₂ : lookupMapping st.existingMappings k₂ with
        | some n₂ =>
          rw [lookupMapping_append_some st.existingMappings k₂ n₂ key c hold₂] at h₂
          injection h₂ with h₂
          rw [h₂] at hold₂
          exact hinv.2 k₁ k₂ m hold₁ hold₂
        | none =>
          rw [lookupMapping_append_none st.existingMappings k₂ key c hold₂] at h₂
          by_cases hkk : key = k₂
          · rw [if_pos hkk] at h₂
            injection h₂ with h₂
            rw [← h₂] at hold₁
            exact absurd (hinv.1 k₁ c hold₁) hglob
          · rw [if_neg hkk] at h₂
            exact absurd h₂ (by simp)
      | none =>
        rw [lookupMapping_append_none st.existingMappings k₁ key c hold₁] at h₁
        by_cases hkk₁ : key = k₁
        · rw [if_pos hkk₁] at h₁
          injection h₁ with h₁
          cases hold₂ : lookupMapping st.existingMappings k₂ with
          | some n₂ =>
            rw [lookupMapping_append_some st.existingMappings k₂ n₂ key c hold₂] at h₂
            injection h₂ with h₂
            rw [h₂, ← h₁] at hold₂
            exact absurd (hinv.1 k₂ c hold₂) hglob
          | none =>
            rw [lookupMapping_append_none st.existingMappings k₂ key c hold₂] at h₂
            by_cases hkk₂ : key = k₂
            · rw [← hkk₁, ← hkk₂]
            · rw [if_neg hkk₂] at h₂
              exact absurd h₂ (by simp)
        · rw [if_neg hkk₁] at h₁
          exact absurd h₁ (by simp)

theorem runOps_inv (ops : List Operation) :
    ∀ st, MappingInv st → MappingInv (runOps st ops).2 := by
  induction ops with
  | nil => intro st h; exact h
  | cons op rest ih =>
    intro st h
    simp only [runOps]
    exact ih _ (mappingInv_preserved st op.moduleName op.path op.method op.operationId h)

/-! The claim theorems. -/

/-- C1 (amended): `_build_function_name` reuses a registry-recorded name for its
    key verbatim, and on a registry miss the chosen name avoids every name in the
    global used-name set at the time of naming — hence every name of a prior
    registry R, provided R's operations have been (re)named first.  (The code does
    not preload R's names into the used-name sets, so a new operation named before
    an R hit may duplicate a name recorded in R; see the counterexample.) -/
theorem registry_stability (st : GenState) (mn path method opId : String) :
    (∀ n, lookupMapping st.existingMappings (strUpper method, convert_path_to_url path) = some n →
      (build_function_name st mn path method opId).1 = n) ∧
    (lookupMapping st.existingMappings (strUpper method, convert_path_to_url path) = none →
      (build_function_name st mn path method opId).1 ∉ st.globalFuncNames) := by
  constructor
  · intro n h
    rw [build_function_name_hit st mn path method opId n h]
  · intro h
    obtain ⟨c, _, hg, heq⟩ := build_function_name_miss st mn path method opId h
    rw [heq]
    exact hg

/-- C1 counterexample: with registry R = \x7b(GET, /users) -> getUsers\x7d loaded and
    nothing yet in the used-name sets, naming the one new operation GET /api/users
    first yields exactly `getUsers` — the name recorded in R for a different
    operation key — refuting the claim that the new operation always receives a
    name distinct from every name in R. -/
theorem registry_stability_counterexample :
    (build_function_name ⟨[], [], [(("GET", "/users"), "getUsers")]⟩ "Default" "/api/users"
        "get" "").1 = "getUsers" ∧
      lookupMapping [(("GET", "/users"), "getUsers")] ("GET", "/users") = some "getUsers" ∧
      ("GET", convert_path_to_url "/api/users") ≠ (("GET", "/users") : String × String) := by
  decide

/-- Witness for `registry_stability` at concrete inputs. -/
theorem registry_stability_witness :
    (build_function_name ⟨[], [], [(("GET", "/users"), "getUsers")]⟩ "Default" "/users" "get"
        "").1 = "getUsers" ∧
      (build_function_name GenState.empty "Default" "/users" "get" "").1 ∉
        GenState.empty.globalFuncNames :=
  ⟨(registry_stability ⟨[], [], [(("GET", "/users"), "getUsers")]⟩ "Default" "/users" "get"
      "").1 "getUsers" (by decide),
   (registry_stability GenState.empty "Default" "/users" "get" "").2 (by decide)⟩

/-- C2 (amended): in a run that starts with no pre-existing registry (nothing
    loaded from a mapping file or scanned output), the registry built by the
    naming pass is injective: two operation keys recorded with the same function
    name are equal.  With a preloaded registry the code can violate this; see the
    counterexample. -/
theorem uniqueness_from_empty_registry (ops : List Operation) (k₁ k₂ : String × String)
    (n : String)
    (h₁ : lookupMapping (runOps GenState.empty ops).2.existingMappings k₁ = some n)
    (h₂ : lookupMapping (runOps GenState.empty ops).2.existingMappings k₂ = some n) :
    k₁ = k₂ :=
  (runOps_inv ops GenState.empty mappingInv_empty).2 k₁ k₂ n h₁ h₂

/-- C2 counterexample: starting from a loaded registry \x7b(GET, /users) -> getUsers\x7d,
    naming GET /api/users (a miss) and then GET /users (a hit) assigns the same
    function name `getUsers` to two distinct operation keys, refuting the claimed
    bijection for runs with a pre-existing registry. -/
theorem uniqueness_counterexample :
    (runOps ⟨[], [], [(("GET", "/users"), "getUsers")]⟩
        [⟨"Default", "/api/users", "get", ""⟩, ⟨"Default", "/users", "get", ""⟩]).1 =
      [(("GET", "/api/users"), "getUsers"), (("GET", "/users"), "getUsers")] ∧
      (("GET", "/api/users") : String × String) ≠ ("GET", "/users") := by
  decide

/-- Witness for `uniqueness_from_empty_registry` at a concrete run. -/
theorem uniqueness_witness :
    (("GET", "/users") : String × String) = ("GET", "/users") :=
  uniqueness_from_empty_registry [⟨"Default", "/users", "get", ""⟩] ("GET", "/users")
    ("GET", "/users") "getUsers" (by decide) (by decide)

/-- C3: the generation pass is a pure function of the document: two naming runs
    over the same operations from the no-registry initial state agree exactly, and
    the type resolver returns identical type expressions for every schema. -/
theorem determinism_two_runs (ops : List Operation) (comps : List (String × Schema))
    (schema : Schema) (context : String) (depth : Nat) (st₁ st₂ : GenState)
    (h₁ : st₁ = GenState.empty) (h₂ : st₂ = GenState.empty) :
    runOps st₁ ops = runOps st₂ ops ∧
      generate_typescript_type comps schema context depth =
        generate_typescript_type comps schema context depth := by
  subst h₁
  subst h₂
  exact ⟨rfl, rfl⟩

/-- Witness for `determinism_two_runs` at concrete inputs. -/
theorem determinism_two_runs_witness :
    runOps GenState.empty [⟨"Default", "/api/users", "get", ""⟩] =
        runOps GenState.empty [⟨"Default", "/api/users", "get", ""⟩] ∧
      generate_typescript_type [] strSchema "" 0 = generate_typescript_type [] strSchema "" 0 :=
  determinism_two_runs [⟨"Default", "/api/users", "get", ""⟩] [] strSchema "" 0
    GenState.empty GenState.empty rfl rfl

/-- C4: resolution always terminates (it is a total function here), short-circuits
    to the unknown type `any` past the depth ceiling — 10 for general resolution,
    5 for inline-object property expansion — and resolves the direct self-cycle
    `A.child : $ref A` to the finite expression `{ child?: A; }`. -/
theorem recursion_depth_ceiling (comps : List (String × Schema)) (schema : Schema)
    (props : List (String × Schema)) (context : String) (depth : Nat) :
    (10 < depth → generate_typescript_type comps schema context depth = "any") ∧
    (5 < depth → generate_inline_interface comps props context depth = "any") ∧
    generate_typescript_type [("A", selfCycleSchema)] selfCycleSchema "" 0 =
      "\x7b child?: A; \x7d" := by
  refine ⟨?_, ?_, by decide⟩
  · intro h
    show generateTypescriptTypeFuel comps (12 - depth) schema context depth = "any"
    rcases Nat.lt_or_ge depth 12 with h12 | h12
    · rw [show 12 - depth = (11 - depth) + 1 by omega]
      simp only [generateTypescriptTypeFuel]
      unfold gtpCore
      rw [if_pos h]
    · rw [show 12 - depth = 0 by omega]
      simp [generateTypescriptTypeFuel]
  · intro h
    unfold generate_inline_interface
    rw [if_pos h]

/-- Witness for `recursion_depth_ceiling` at concrete depths past each ceiling. -/
theorem recursion_depth_ceiling_witness :
    ((10 : Nat) < 11 ∧ generate_typescript_type [] strSchema "" 11 = "any") ∧
      ((5 : Nat) < 6 ∧ generate_inline_interface [] [] "" 6 = "any") :=
  ⟨⟨by decide, (recursion_depth_ceiling [] strSchema [] "" 11).1 (by decide)⟩,
   ⟨by decide, (recursion_depth_ceiling [] strSchema [] "" 6).2.1 (by decide)⟩⟩

/-- C5 (amended): the first path-derived candidate is `prefix + resource` with no
    parent qualification: GET `/users/{id}/orders` with no operationId, first in
    its module from an empty registry, is named `getOrders`, and GET `/users/{id}`
    is named `getUsers` (no `ById` suffix without a literal `byId` segment); the
    two names are distinct, so the operations never collide.  The parent-qualified
    `prefix + parent + resource` form `getUsersOrders` is used only as the first
    fallback once the short candidate is already taken. -/
theorem parent_qualified_naming :
    (runOps GenState.empty
        [⟨"Users", "/users/\x7bid\x7d", "get", ""⟩,
         ⟨"Users", "/users/\x7bid\x7d/orders", "get", ""⟩]).1 =
      [(("GET", "/users/$\x7bpathParams.id\x7d"), "getUsers"),
       (("GET", "/users/$\x7bpathParams.id\x7d/orders"), "getOrders")] ∧
      "getUsers" ≠ "getOrders" ∧
      (build_function_name ⟨[("users", ["getOrders"])], ["getOrders"], []⟩ "Users"
          "/users/\x7bid\x7d/orders" "get" "").1 = "getUsersOrders" := by
  decide

/-- C5 counterexample: GET `/users/{id}/orders`, no operationId, first operation in
    its module with an empty registry, is assigned the short name `getOrders`, not
    a parent-qualified `prefix + parent + resource` name as claimed. -/
theorem parent_qualified_naming_counterexample :
    (build_function_name GenState.empty "Users" "/users/\x7bid\x7d/orders" "get" "").1 =
        "getOrders" ∧
      "getOrders" ≠ "getUsersOrders" ∧ "getOrders" ≠ "getUsersIdOrders" := by
  decide

/-- C6: a supplied operationId is used (normalized) exactly when it is non-empty,
    not sequential-looking, not a bare generic verb, and not already taken in the
    module or globally; `get_3` is sequential-looking and falls through to the
    path-derived name, while `fetchUserProfile` is used directly. -/
theorem operation_id_acceptance (st : GenState) (mn path method opId : String)
    (hmiss : lookupMapping st.existingMappings (strUpper method, convert_path_to_url path) = none)
    (hne : opId ≠ "") (hseq : is_sequential_operation_id opId = false)
    (hgen : is_generic_operation_id opId = false)
    (hfree : normalize_identifier opId ∉ st.moduleSeen (module_key_of mn) ∧
      normalize_identifier opId ∉ st.globalFuncNames) :
    (build_function_name st mn path method opId).1 = normalize_identifier opId ∧
      is_sequential_operation_id "get_3" = true ∧
      (build_function_name GenState.empty "Default" "/users/profile" "get" "get_3").1 =
        build_short_name "/users/profile" "get" ∧
      build_short_name "/users/profile" "get" = "getProfile" ∧
      (build_function_name GenState.empty "Default" "/users/profile" "get"
          "fetchUserProfile").1 = "fetchUserProfile" := by
  refine ⟨?_, by decide, by decide, by decide, by decide⟩
  unfold build_function_name
  simp only [hmiss]
  rw [if_pos ⟨hne, hseq, hgen⟩]
  unfold chooseName
  rw [if_pos hfree]

/-- Witness for `operation_id_acceptance` at concrete inputs. -/
theorem operation_id_acceptance_witness :
    (build_function_name GenState.empty "Default" "/x" "get" "fetchUserProfile").1 =
        normalize_identifier "fetchUserProfile" ∧
      is_sequential_operation_id "get_3" = true ∧
      (build_function_name GenState.empty "Default" "/users/profile" "get" "get_3").1 =
        build_short_name "/users/profile" "get" ∧
      build_short_name "/users/profile" "get" = "getProfile" ∧
      (build_function_name GenState.empty "Default" "/users/profile" "get"
          "fetchUserProfile").1 = "fetchUserProfile" :=
  operation_id_acceptance GenState.empty "Default" "/x" "get" "fetchUserProfile" (by decide)
    (by decide) (by decide) (by decide) ⟨by decide, by decide⟩

/-- C7: inline object expansion renders every property with the optional marker
    and never consults a `required` list — two object schemas differing only in
    `required` resolve identically inline — while the top-level named-interface
    emitter marks a property as required exactly when it appears in `required`. -/
theorem inline_objects_always_optional (comps : List (String × Schema))
    (props : List (String × Schema)) (context : String) (depth : Nat)
    (req₁ req₂ : List String) (h : depth ≤ 5) :
    generate_inline_interface comps props context depth =
        inlineAllOptionalRender comps props context depth ∧
      generate_typescript_type comps (objSchema props req₁) context depth =
        generate_typescript_type comps (objSchema props req₂) context depth ∧
      generate_interface [] [] "T" (objSchema [("x", strSchema)] ["x"]) =
        ("export interface T \x7b\n  x: string;\n\x7d", ["T"]) ∧
      generate_interface [] [] "T" (objSchema [("x", strSchema)] []) =
        ("export interface T \x7b\n  x?: string;\n\x7d", ["T"]) := by
  refine ⟨?_, ?_, by decide, by decide⟩
  · unfold generate_inline_interface inlineAllOptionalRender
    rw [if_neg (by omega)]
  · show generateTypescriptTypeFuel comps (12 - depth) (objSchema props req₁) context depth =
      generateTypescriptTypeFuel comps (12 - depth) (objSchema props req₂) context depth
    rw [show 12 - depth = (11 - depth) + 1 by omega]
    simp only [generateTypescriptTypeFuel]
    unfold gtpCore
    simp [objSchema, Schema.isEmpty, Schema.ref, Schema.type, Schema.enum, Schema.items,
      Schema.properties, Schema.additionalProperties, Schema.required, Schema.description,
      Option.getD, Option.isNone]

/-- Witness for `inline_objects_always_optional` at concrete inputs. -/
theorem inline_objects_always_optional_witness :
    generate_inline_interface [] [("x", strSchema)] "" 0 =
        inlineAllOptionalRender [] [("x", strSchema)] "" 0 ∧
      generate_typescript_type [] (objSchema [("x", strSchema)] ["x"]) "" 0 =
        generate_typescript_type [] (objSchema [("x", strSchema)] []) "" 0 :=
  ⟨(inline_objects_always_optional [] [("x", strSchema)] "" 0 ["x"] [] (by decide)).1,
   (inline_objects_always_optional [] [("x", strSchema)] "" 0 ["x"] [] (by decide)).2.1⟩

/-- C8: a string schema carrying an enumeration resolves to the closed union of
    one quoted literal per enum value, in source order and without
    deduplication. -/
theorem enum_fidelity (comps : List (String × Schema)) (values : List String)
    (context : String) (depth : Nat) (h : depth ≤ 10) :
    generate_typescript_type comps (enumSchema values) context depth =
      strIntercalate " | " (values.map (fun v => "\"" ++ v ++ "\"")) := by
  show generateTypescriptTypeFuel comps (12 - depth) (enumSchema values) context depth = _
  rw [show 12 - depth = (11 - depth) + 1 by omega]
  simp only [generateTypescriptTypeFuel]
  unfold gtpCore
  rw [if_neg (by omega)]
  simp [enumSchema, Schema.isEmpty, Schema.ref, Schema.type, Schema.enum, Option.getD,
    Option.isNone]

/-- Witness for `enum_fidelity`: `["a","b","c"]` gives exactly `"a" | "b" | "c"`,
    and a duplicated value is not deduplicated. -/
theorem enum_fidelity_witness :
    generate_typescript_type [] (enumSchema ["a", "b", "c"]) "" 0 = "\"a\" | \"b\" | \"c\"" ∧
      generate_typescript_type [] (enumSchema ["a", "a"]) "" 0 = "\"a\" | \"a\"" :=
  ⟨by rw [enum_fidelity [] ["a", "b", "c"] "" 0 (by decide)]; decide,
   by rw [enum_fidelity [] ["a", "a"] "" 0 (by decide)]; decide⟩

/-- C9: resolution of any `$ref` schema node returns the bare last path segment of
    the reference — never the referenced schema's expansion, and never a failure:
    component/definition references return the name directly, and any other
    reference shape makes `resolve_ref` return `none`, after which the bare name
    is returned as well. -/
theorem ref_resolution_bare_name (comps : List (String × Schema)) (schema : Schema)
    (context : String) (depth : Nat) (r : String) (h : depth ≤ 10)
    (href : schema.ref = some r) :
    generate_typescript_type comps schema context depth = lastSegment r := by
  obtain ⟨ref', t, e, it, props, ad, req, desc⟩ := schema
  simp only [Schema.ref] at href
  subst href
  show generateTypescriptTypeFuel comps (12 - depth) _ context depth = _
  rw [show 12 - depth = (11 - depth) + 1 by omega]
  simp only [generateTypescriptTypeFuel]
  unfold gtpCore
  rw [if_neg (by omega)]
  simp only [Schema.isEmpty, Schema.ref, Option.isNone, Bool.false_and, Bool.true_and]
  by_cases h1 : (strStartsWith r "#/components/schemas/" || strStartsWith r "#/definitions/") = true
  · simp [h1]
  · have h1f : (strStartsWith r "#/components/schemas/" || strStartsWith r "#/definitions/") =
        false := by simpa using h1
    have hc : strStartsWith r "#/components/schemas/" = false := by
      cases hx : strStartsWith r "#/components/schemas/" <;> simp [hx] at h1f ⊢
    have hd : strStartsWith r "#/definitions/" = false := by
      cases hx : strStartsWith r "#/definitions/" <;> simp [hx] at h1f ⊢
    have h2 : resolve_ref comps r = none := by
      unfold resolve_ref
      rw [if_neg (by simp [hc]), if_neg (by simp [hd])]
    simp [h1f, h2]

/-- Witness for `ref_resolution_bare_name`: a component reference with the target
    present in the components table still yields only the bare name, and an
    unresolvable reference yields its bare name instead of failing. -/
theorem ref_resolution_bare_name_witness :
    generate_typescript_type [("User", objSchema [("id", strSchema)] [])]
        (refSchema "#/components/schemas/User") "" 0 = "User" ∧
      generate_typescript_type [] (refSchema "#/unknown/Thing") "" 0 = "Thing" :=
  ⟨by
    rw [ref_resolution_bare_name [("User", objSchema [("id", strSchema)] [])]
      (refSchema "#/components/schemas/User") "" 0 "#/components/schemas/User" (by decide) rfl]
    decide,
   by
    rw [ref_resolution_bare_name [] (refSchema "#/unknown/Thing") "" 0 "#/unknown/Thing"
      (by decide) rfl]
    decide⟩

/-- C10: named-type emission is idempotent: when the name is already recorded the
    emitter is a no-op returning only a comment and an unchanged set; a first call
    records the name, so a repeated call for the same name emits no second
    interface definition. -/
theorem named_emission_idempotent (comps : List (String × Schema)) (generated : List String)
    (name : String) (schema schema' : Schema) :
    (name ∈ generated →
      generate_interface comps generated name schema =
        ("// interface " ++ name ++ " 已生成\n", generated)) ∧
    (name ∉ generated →
      (generate_interface comps generated name schema).2 = name :: generated ∧
      generate_interface comps (generate_interface comps generated name schema).2 name schema' =
        ("// interface " ++ name ++ " 已生成\n", name :: generated)) := by
  constructor
  · intro h
    unfold generate_interface
    rw [if_pos h]
  · intro h
    have h2 : (generate_interface comps generated name schema).2 = name :: generated := by
      unfold generate_interface
      rw [if_neg h]
      split <;> rfl
    refine ⟨h2, ?_⟩
    rw [h2]
    unfold generate_interface
    rw [if_pos (List.mem_cons_self name generated)]

/-- Witness for `named_emission_idempotent` at concrete inputs. -/
theorem named_emission_idempotent_witness :
    ("T" ∈ (["T"] : List String) ∧
      generate_interface [] ["T"] "T" strSchema = ("// interface T 已生成\n", ["T"])) ∧
    ("T" ∉ ([] : List String) ∧
      (generate_interface [] [] "T" strSchema).2 = ["T"] ∧
      generate_interface [] (generate_interface [] [] "T" strSchema).2 "T" strSchema =
        ("// interface T 已生成\n", ["T"])) :=
  ⟨⟨by decide, (named_emission_idempotent [] ["T"] "T" strSchema strSchema).1 (by decide)⟩,
   ⟨by decide, (named_emission_idempotent [] [] "T" strSchema strSchema).2 (by decide)⟩⟩

end SwaggerGen
